import Mathlib

/-!
Verification of the Bibliography Aggregation & Search Engine
(`src/gwt/panmirror/src/editor/src/api/bibliography/bibliography.ts`).

The TypeScript class `BibliographyManager` is embedded shallowly: its mutable
fields become a state structure, `async` methods become pure functions on the
resolved values, `undefined` becomes `Option`, and JS arrays become `List`.
Each provider (the polymorphic `BibliographyDataProvider` interface) is
embedded as a record carrying the values its methods return during one load
cycle; the Manager never looks inside a provider except through those methods,
so this captures every behaviour the Manager code can observe.

Code the Manager calls that is not part of the sampled sources —
the Fuse.js fuzzy index, `toBibLaTeX` from `bibDB.ts`, the local-provider key
constant from `bibliography-provider_local.ts`, and the `CSL` field interface
from `csl.ts` — is modelled from the specification and marked as such on each
definition.
-/

namespace Bibliography

/-- `BibliographyFile` from bibliography.ts: a candidate on-disk bibliography
location, each flagged writable or not. -/
structure BibliographyFile where
  displayPath : String
  fullPath : String
  isProject : Bool
  writable : Bool
deriving DecidableEq

/-- Modelled from the spec: one author entry of the normalized CSL fields
(`csl.ts` is not under src/): family, given and literal name parts, each
optional ("field extraction is tolerant of missing optional fields"). -/
structure CSLName where
  family : Option String
  given : Option String
  literal : Option String
deriving DecidableEq

/-- Modelled from the spec: the normalized citation fields of `csl.ts` (not
under src/) that this layer reads — title, authors, issue date and DOI, all
optional. -/
structure CSL where
  title : Option String
  author : List CSLName
  issued : Option String
  DOI : Option String
deriving DecidableEq

/-- `BibliographySource` from bibliography.ts: the CSL fields plus `id` and
`providerKey`.  The extra `provider` field models the untyped `provider`
property that `searchAllSources` reads off the record (`result.item` is typed
`any` there); the interface itself declares only `providerKey`, and a record
on which the property is absent carries `none`. -/
structure BibliographySource extends CSL where
  id : String
  providerKey : String
  provider : Option String
deriving DecidableEq

/-- `BibliographySourceWithCollections`: a source plus the keys of the
collections it belongs to. -/
structure BibliographySourceWithCollections extends BibliographySource where
  collectionKeys : List String
deriving DecidableEq

/-- `BibliographyCollection` from bibliography.ts. -/
structure BibliographyCollection where
  name : String
  key : String
  provider : String
  parentKey : Option String
deriving DecidableEq

/-- The `BibliographyDataProvider` interface, embedded as the values its
methods yield during one load cycle: `loadChanged` is the boolean that
`load(...)` resolved to, `items`/`collections`/`bibliographyPaths` are the
reads of the last load, and `generateBibLaTeX` gives the value the provider's
citation synthesis resolves to for a given id and source (`none` = declines). -/
structure BibliographyDataProvider where
  key : String
  name : String
  isEnabled : Bool
  loadChanged : Bool
  items : List BibliographySourceWithCollections
  collections : List BibliographyCollection
  bibliographyPaths : List BibliographyFile
  generateBibLaTeX : String → CSL → Option String
  warningMessage : Option String

/-- Modelled from the spec: `kLocalBiliographyProviderKey` is exported by
`bibliography-provider_local.ts`, which is not under src/; only its identity
as "the designated local provider's key" matters to the Manager code. -/
def kLocalBiliographyProviderKey : String := "local"

/-! ## Fuse.js search model

Fuse.js is the third-party fuzzy index the Manager builds in `updateIndex` and
queries in `searchAllSources`.  It is modelled from the spec (§4.3): a
case-insensitive fuzzy match against the weighted fields of `kFields`, scored
per record, sorted by descending relevance and truncated to the limit, and
returning the empty sequence on an empty record set. -/

/-- Leading-match test on character lists. -/
def leadMatch : List Char → List Char → Bool
  | [], _ => true
  | _ :: _, [] => false
  | a :: as, b :: bs => a == b && leadMatch as bs

/-- Substring test on character lists. -/
def subMatch (needle : List Char) : List Char → Bool
  | [] => leadMatch needle []
  | b :: bs => leadMatch needle (b :: bs) || subMatch needle bs

/-- Modelled from the spec: the case-insensitive fuzzy match of one query
against one field value. -/
def fieldMatch (q f : String) : Bool :=
  q != "" && subMatch (q.data.map Char.toLower) (f.data.map Char.toLower)

/-- Match against an optional field: an absent field contributes no match. -/
def optFieldMatch (q : String) (f : Option String) : Bool :=
  match f with
  | some s => fieldMatch q s
  | none => false

/-- Modelled from the spec: the weighted relevance score of a record for a
query, with the field-weight table `kFields` of bibliography.ts scaled by
1000: id 300, author.family 275, author.literal 275, title 100,
author.given 25, issued 25, provider 0. -/
def fuseScore (q : String) (r : BibliographySourceWithCollections) : Nat :=
  (if fieldMatch q r.id then 300 else 0) +
  (if r.author.any (fun a => optFieldMatch q a.family) then 275 else 0) +
  (if r.author.any (fun a => optFieldMatch q a.literal) then 275 else 0) +
  (if optFieldMatch q r.title then 100 else 0) +
  (if r.author.any (fun a => optFieldMatch q a.given) then 25 else 0) +
  (if optFieldMatch q r.issued then 25 else 0) +
  (if optFieldMatch q r.provider then 0 else 0)

/-- Insert a record into a list kept in descending `fuseScore` order. -/
def insertDesc (q : String) (r : BibliographySourceWithCollections) :
    List BibliographySourceWithCollections → List BibliographySourceWithCollections
  | [] => [r]
  | x :: xs =>
    if fuseScore q x < fuseScore q r then r :: x :: xs else x :: insertDesc q r xs

/-- Insertion sort by descending `fuseScore`. -/
def sortByScore (q : String) :
    List BibliographySourceWithCollections → List BibliographySourceWithCollections
  | [] => []
  | x :: xs => insertDesc q x (sortByScore q xs)

/-- Modelled from the spec: `fuse.search(query, options)` — the matching
records sorted by descending relevance score and truncated to `limit`. -/
def fuseSearch (records : List BibliographySourceWithCollections) (q : String)
    (limit : Nat) : List BibliographySourceWithCollections :=
  (sortByScore q (records.filter (fun r => 0 < fuseScore q r))).take limit

/-! ## The Manager state -/

/-- The mutable fields of `BibliographyManager`: `fuse` holds the record list
the index was built over in `updateIndex` (`none` = the index has never been
built), `sources` and `writable` are the optional fields of the class. -/
structure BibliographyManager where
  providers : List BibliographyDataProvider
  fuse : Option (List BibliographySourceWithCollections)
  sources : Option (List BibliographySourceWithCollections)
  writable : Option Bool

/-- The constructor: two providers (local first, Zotero second) and every
other field `undefined`. -/
def mkBibliographyManager (localProvider zoteroProvider : BibliographyDataProvider) :
    BibliographyManager :=
  { providers := [localProvider, zoteroProvider]
    fuse := none
    sources := none
    writable := none }

/-- `bibliographyFiles`: the concatenation of `bibliographyPaths` over all
providers. -/
def bibliographyFiles (m : BibliographyManager) : List BibliographyFile :=
  (m.providers.map (fun provider => provider.bibliographyPaths)).flatten

/-- `shouldAllowWrites`: true when there are no bibliography files, otherwise
true when the writable ones are more than zero. -/
def shouldAllowWrites (m : BibliographyManager) : Bool :=
  let files := bibliographyFiles m
  if files.length == 0 then
    true
  else
    decide (0 < (files.filter (fun bibFile => bibFile.writable)).length)

/-- `isWritable`: `this.writable || false`. -/
def isWritable (m : BibliographyManager) : Bool :=
  m.writable.getD false

/-- JS `Array.prototype.reduce` of boolean-or with no initial value: throws
(`none`) on an empty array, else folds the tail onto the head. -/
def reduceOr : List Bool → Option Bool
  | [] => none
  | h :: t => some (t.foldl (fun prev curr => prev || curr) h)

/-- `load`: every provider has already resolved its own `load` (the embedded
`loadChanged`); the writability flag is recomputed unconditionally; when some
provider reported change the providers' items are concatenated into `sources`
and the index is rebuilt over them, otherwise both are left untouched. -/
def load (m : BibliographyManager) : Option BibliographyManager :=
  let providersNeedUpdate := m.providers.map (fun provider => provider.loadChanged)
  let writable := shouldAllowWrites m
  match reduceOr providersNeedUpdate with
  | none => none
  | some needsIndexUpdate =>
    if needsIndexUpdate then
      let sources := (m.providers.map (fun provider => provider.items)).flatten
      some { m with writable := some writable, sources := some sources, fuse := some sources }
    else
      some { m with writable := some writable }

/-- `allSources`: the full merged set when it exists and the bibliography is
writable, else the merged set filtered to the local provider's records
(`[]` when no merge has happened yet). -/
def allSources (m : BibliographyManager) : List BibliographySourceWithCollections :=
  match m.sources with
  | some sources =>
    if isWritable m then sources
    else sources.filter (fun source => source.providerKey == kLocalBiliographyProviderKey)
  | none => []

/-- `hasSources`: `allSources().length > 0`. -/
def hasSources (m : BibliographyManager) : Bool :=
  decide (0 < (allSources m).length)

/-- `sourcesForProvider`. -/
def sourcesForProvider (m : BibliographyManager) (providerKey : String) :
    List BibliographySourceWithCollections :=
  (allSources m).filter (fun item => item.providerKey == providerKey)

/-- `sourcesForProviderCollection`. -/
def sourcesForProviderCollection (m : BibliographyManager) (provider collectionKey : String) :
    List BibliographySourceWithCollections :=
  (sourcesForProvider m provider).filter (fun item => item.collectionKeys.contains collectionKey)

/-- `localSources`. -/
def localSources (m : BibliographyManager) : List BibliographySourceWithCollections :=
  (allSources m).filter (fun source => source.providerKey == kLocalBiliographyProviderKey)

/-- Modelled from the spec: `toBibLaTeX` of `bibDB.ts` (not under src/) — the
generic citation-interchange formatter over the normalized source fields,
total and non-empty for a well-formed source. -/
def toBibLaTeX (id : String) (csl : CSL) : String :=
  "@misc\x7b" ++ id ++
    (match csl.title with
     | some t => ",\n  title = \x7b" ++ t ++ "\x7d"
     | none => "") ++
    (match csl.issued with
     | some d => ",\n  date = \x7b" ++ d ++ "\x7d"
     | none => "") ++ "\n\x7d"

/-- `BibliographyManager.generateBibLaTeX`: find the named provider; the JS
then tests `if (dataProviderBibLaTeX)` on the un-awaited Promise object, which
is always truthy, so whenever the provider exists its resolved value is
returned as-is — the `toBibLaTeX` fallback runs only when no provider matches
the key. -/
def generateBibLaTeX (m : BibliographyManager) (id : String) (csl : CSL)
    (provider : Option String) : Option String :=
  match m.providers.find? (fun prov => some prov.key == provider) with
  | some dataProvider => dataProvider.generateBibLaTeX id csl
  | none => some (toBibLaTeX id csl)

/-- `searchAllSources`: when the index exists, query it with the limit, then —
unless the bibliography is writable — keep only items whose `provider`
property equals the local provider key (note: the JS reads `item.provider`,
not `item.providerKey`); without an index, the empty list. -/
def searchAllSources (m : BibliographyManager) (query : String) (limit : Nat) :
    List BibliographySourceWithCollections :=
  match m.fuse with
  | some records =>
    let items := fuseSearch records query limit
    if isWritable m then items
    else items.filter (fun item => item.provider == some kLocalBiliographyProviderKey)
  | none => []

/-- `searchProvider`. -/
def searchProvider (m : BibliographyManager) (query : String) (limit : Nat)
    (providerKey : String) : List BibliographySourceWithCollections :=
  (searchAllSources m query limit).filter (fun item => item.providerKey == providerKey)

/-- `searchProviderCollection`. -/
def searchProviderCollection (m : BibliographyManager) (query : String) (limit : Nat)
    (providerKey collectionKey : String) : List BibliographySourceWithCollections :=
  (searchProvider m query limit providerKey).filter
    (fun item => item.collectionKeys.contains collectionKey)

/-- JS truthiness of an optional string parameter: `undefined` and `""` are
falsy. -/
def optStrTruthy : Option String → Bool
  | none => false
  | some s => s != ""

/-- `search`: with a truthy query, route to the index scoped by the truthy
provider/collection keys; otherwise route to direct scoped filtering over
`allSources`. -/
def search (m : BibliographyManager) (query providerKey collectionKey : Option String) :
    List BibliographySourceWithCollections :=
  let limit := 1000
  if optStrTruthy query then
    let q := query.getD ""
    if optStrTruthy providerKey && optStrTruthy collectionKey then
      searchProviderCollection m q limit (providerKey.getD "") (collectionKey.getD "")
    else if optStrTruthy providerKey then
      searchProvider m q limit (providerKey.getD "")
    else
      searchAllSources m q limit
  else
    if optStrTruthy providerKey && optStrTruthy collectionKey then
      sourcesForProviderCollection m (providerKey.getD "") (collectionKey.getD "")
    else if optStrTruthy providerKey then
      sourcesForProvider m (providerKey.getD "")
    else
      allSources m

/-! ## Helper lemmas about the search model -/

/-- Inserting into a list is a permutation of consing. -/
theorem insertDesc_perm (q : String) (r : BibliographySourceWithCollections)
    (l : List BibliographySourceWithCollections) : List.Perm (insertDesc q r l) (r :: l) := by
  induction l with
  | nil => exact List.Perm.refl _
  | cons a as ih =>
    rw [insertDesc]
    split
    · exact List.Perm.refl _
    · exact (List.Perm.cons a ih).trans (List.Perm.swap r a as)

/-- Sorting is a permutation of the input. -/
theorem sortByScore_perm (q : String) (l : List BibliographySourceWithCollections) :
    List.Perm (sortByScore q l) l := by
  induction l with
  | nil => exact List.Perm.refl _
  | cons a as ih =>
    exact (insertDesc_perm q a (sortByScore q as)).trans (List.Perm.cons a ih)

/-- Membership in an insertion. -/
theorem mem_of_mem_insertDesc {q : String} {r x : BibliographySourceWithCollections}
    {l : List BibliographySourceWithCollections} (h : x ∈ insertDesc q r l) :
    x = r ∨ x ∈ l := by
  exact List.mem_cons.mp ((insertDesc_perm q r l).mem_iff.mp h)

/-- Insertion preserves descending sortedness by score. -/
theorem pairwise_insertDesc {q : String} (r : BibliographySourceWithCollections)
    {l : List BibliographySourceWithCollections}
    (h : List.Pairwise (fun a b => fuseScore q b ≤ fuseScore q a) l) :
    List.Pairwise (fun a b => fuseScore q b ≤ fuseScore q a) (insertDesc q r l) := by
  induction l with
  | nil => simp [insertDesc]
  | cons a as ih =>
    rcases List.pairwise_cons.mp h with ⟨ha, has⟩
    rw [insertDesc]
    by_cases hc : fuseScore q a < fuseScore q r
    · rw [if_pos hc]
      refine List.pairwise_cons.mpr ⟨?_, h⟩
      intro y hy
      rcases List.mem_cons.mp hy with rfl | hy'
      · exact Nat.le_of_lt hc
      · exact Nat.le_trans (ha y hy') (Nat.le_of_lt hc)
    · rw [if_neg hc]
      refine List.pairwise_cons.mpr ⟨?_, ih has⟩
      intro y hy
      rcases mem_of_mem_insertDesc hy with rfl | hy'
      · exact Nat.le_of_not_lt hc
      · exact ha y hy'

/-- The sort's output is in descending score order. -/
theorem pairwise_sortByScore (q : String) (l : List BibliographySourceWithCollections) :
    List.Pairwise (fun a b => fuseScore q b ≤ fuseScore q a) (sortByScore q l) := by
  induction l with
  | nil => simp [sortByScore]
  | cons a as ih => exact pairwise_insertDesc a ih

/-- Every fuse result comes from the indexed record set. -/
theorem fuseSearch_subset {records : List BibliographySourceWithCollections} {q : String}
    {limit : Nat} {x : BibliographySourceWithCollections}
    (h : x ∈ fuseSearch records q limit) : x ∈ records := by
  have h1 : x ∈ sortByScore q (records.filter (fun r => 0 < fuseScore q r)) :=
    List.take_subset _ _ h
  have h2 : x ∈ records.filter (fun r => 0 < fuseScore q r) :=
    (sortByScore_perm q _).mem_iff.mp h1
  exact (List.mem_filter.mp h2).1

/-- The fuse result is no longer than its limit. -/
theorem fuseSearch_length_le (records : List BibliographySourceWithCollections)
    (q : String) (limit : Nat) : (fuseSearch records q limit).length ≤ limit := by
  rw [fuseSearch]
  exact List.length_take_le limit (sortByScore q (records.filter (fun r => 0 < fuseScore q r)))

/-- The fuse result is in descending score order. -/
theorem fuseSearch_pairwise (records : List BibliographySourceWithCollections)
    (q : String) (limit : Nat) :
    List.Pairwise (fun a b => fuseScore q b ≤ fuseScore q a) (fuseSearch records q limit) :=
  List.Pairwise.sublist (List.take_sublist _ _) (pairwise_sortByScore q _)

/-- An or-fold over falses from a false seed stays false. -/
theorem foldl_or_false {l : List Bool} (h : ∀ b ∈ l, b = false) :
    l.foldl (fun prev curr => prev || curr) false = false := by
  induction l with
  | nil => rfl
  | cons b bs ih =>
    have hb := h b (List.mem_cons_self b bs)
    subst hb
    exact ih fun c hc => h c (List.mem_cons_of_mem _ hc)

/-- Whatever the writability gate keeps of a fuse result is still bounded by
the limit and still in descending score order. -/
theorem searchAllSources_length_le (m : BibliographyManager) (q : String) (limit : Nat) :
    (searchAllSources m q limit).length ≤ limit := by
  rw [searchAllSources]
  cases m.fuse with
  | none => exact Nat.zero_le _
  | some records =>
    cases hw : isWritable m
    · simpa [hw] using
        Nat.le_trans (List.length_filter_le _ (fuseSearch records q limit))
          (fuseSearch_length_le records q limit)
    · simpa [hw] using fuseSearch_length_le records q limit

/-- `searchAllSources` output is in descending score order. -/
theorem searchAllSources_pairwise (m : BibliographyManager) (q : String) (limit : Nat) :
    List.Pairwise (fun a b => fuseScore q b ≤ fuseScore q a) (searchAllSources m q limit) := by
  rw [searchAllSources]
  cases m.fuse with
  | none => simp
  | some records =>
    cases hw : isWritable m
    · simpa [hw] using List.Pairwise.filter _ (fuseSearch_pairwise records q limit)
    · simpa [hw] using fuseSearch_pairwise records q limit

/-! ## Concrete example data for witnesses -/

/-- A record as the local provider produces it (its `provider` property, when
present, names its own provider). -/
def exLocalRecord : BibliographySourceWithCollections :=
  { title := some "Foo"
    author := [{ family := some "Smith", given := some "Anna", literal := none }]
    issued := some "2020"
    DOI := none
    id := "smith2020"
    providerKey := kLocalBiliographyProviderKey
    provider := some kLocalBiliographyProviderKey
    collectionKeys := ["coll1"] }

/-- A record from the Zotero provider (no `provider` property). -/
def exZoteroRecord : BibliographySourceWithCollections :=
  { title := some "Bar"
    author := [{ family := some "Jones", given := none, literal := none }]
    issued := some "2019"
    DOI := none
    id := "jones2019"
    providerKey := "zotero"
    provider := none
    collectionKeys := [] }

/-- A read-only on-disk bibliography file. -/
def exReadOnlyFile : BibliographyFile :=
  { displayPath := "references.bib"
    fullPath := "/docs/references.bib"
    isProject := false
    writable := false }

/-- The local provider after a load cycle that reported no change. -/
def exLocalProvider : BibliographyDataProvider :=
  { key := kLocalBiliographyProviderKey
    name := "Bibliography"
    isEnabled := true
    loadChanged := false
    items := [exLocalRecord]
    collections := []
    bibliographyPaths := [exReadOnlyFile]
    generateBibLaTeX := fun _ _ => none
    warningMessage := none }

/-- The Zotero provider after a load cycle that reported no change; its
citation synthesis declines (resolves to `undefined`). -/
def exZoteroProvider : BibliographyDataProvider :=
  { key := "zotero"
    name := "Zotero"
    isEnabled := true
    loadChanged := false
    items := [exZoteroRecord]
    collections := []
    bibliographyPaths := []
    generateBibLaTeX := fun _ _ => none
    warningMessage := none }

/-- A loaded manager whose only bibliography file is read-only: the merged set
and index hold both providers' records and the state is not writable. -/
def exLoadedReadOnly : BibliographyManager :=
  { providers := [exLocalProvider, exZoteroProvider]
    fuse := some [exLocalRecord, exZoteroRecord]
    sources := some [exLocalRecord, exZoteroRecord]
    writable := some false }

/-! ## Claim theorems -/

/-- C3: on a loaded state `allSources` returns the full merged set when the
state is writable, and exactly the merged records whose `providerKey` is the
local provider key (every other provider's records excluded) when it is not. -/
theorem c3_allSources_writability_gate (m : BibliographyManager)
    (src : List BibliographySourceWithCollections) (h : m.sources = some src) :
    (isWritable m = true → allSources m = src) ∧
    (isWritable m = false →
      allSources m =
        src.filter (fun r => r.providerKey == kLocalBiliographyProviderKey)) := by
  constructor <;> intro hw <;> simp [allSources, h, hw]

/-- C3 witness: the gate evaluated on a concrete loaded read-only state. -/
theorem c3_allSources_writability_gate_witness :
    (isWritable exLoadedReadOnly = true →
      allSources exLoadedReadOnly = [exLocalRecord, exZoteroRecord]) ∧
    (isWritable exLoadedReadOnly = false →
      allSources exLoadedReadOnly =
        [exLocalRecord, exZoteroRecord].filter
          (fun r => r.providerKey == kLocalBiliographyProviderKey)) :=
  c3_allSources_writability_gate exLoadedReadOnly [exLocalRecord, exZoteroRecord] rfl

/-- C4: the writability computed at load is true when the concatenated
bibliography-file list is empty, and otherwise true exactly when at least one
enumerated file is writable. -/
theorem c4_shouldAllowWrites_iff (m : BibliographyManager) :
    shouldAllowWrites m = true ↔
      bibliographyFiles m = [] ∨ ∃ f ∈ bibliographyFiles m, f.writable = true := by
  by_cases hfe : bibliographyFiles m = []
  · simp [shouldAllowWrites, hfe]
  · simp only [shouldAllowWrites, beq_iff_eq, List.length_eq_zero, hfe, if_false,
      decide_eq_true_eq, List.length_pos_iff_exists_mem, List.mem_filter]
    constructor
    · rintro ⟨f, hf, hw⟩
      exact Or.inr ⟨f, hf, hw⟩
    · rintro (h | ⟨f, hf, hw⟩)
      · exact h.elim
      · exact ⟨f, hf, hw⟩

/-- C9: an empty-string query is falsy in JS, so `search` with query `""`
behaves exactly like `search` with the query absent, and its result does not
depend on the fuse index at all. -/
theorem c9_empty_query_like_absent (m : BibliographyManager) (pk ck : Option String) :
    search m (some "") pk ck = search m none pk ck ∧
    ∀ fu, search { m with fuse := fu } (some "") pk ck = search m (some "") pk ck := by
  exact ⟨rfl, fun fu => rfl⟩

/-- C10: on a freshly constructed manager, before any `load`, `isWritable` is
false, `allSources` is empty, `hasSources` is false and `sourcesForProvider`
is empty for every provider key. -/
theorem c10_fresh_manager_is_empty (localProvider zoteroProvider : BibliographyDataProvider)
    (k : String) :
    isWritable (mkBibliographyManager localProvider zoteroProvider) = false ∧
    allSources (mkBibliographyManager localProvider zoteroProvider) = [] ∧
    hasSources (mkBibliographyManager localProvider zoteroProvider) = false ∧
    sourcesForProvider (mkBibliographyManager localProvider zoteroProvider) k = [] :=
  ⟨rfl, rfl, rfl, rfl⟩

/-- C5: when every provider's load resolved to false, `load` succeeds and
leaves the merged record set and the search index exactly as they were (no
merge, no index rebuild). -/
theorem c5_load_no_change_keeps_state (m : BibliographyManager)
    (hne : m.providers ≠ [])
    (hall : ∀ p ∈ m.providers, p.loadChanged = false) :
    ∃ m', load m = some m' ∧ m'.sources = m.sources ∧ m'.fuse = m.fuse := by
  obtain ⟨p, ps, hps⟩ := List.exists_cons_of_ne_nil hne
  refine ⟨{ m with writable := some (shouldAllowWrites m) }, ?_, rfl, rfl⟩
  have hp : p.loadChanged = false := hall p (by rw [hps]; exact List.mem_cons_self p ps)
  have hmap : ∀ b ∈ ps.map (fun provider => provider.loadChanged), b = false := by
    intro b hb
    obtain ⟨pp, hpp, rfl⟩ := List.mem_map.mp hb
    exact hall pp (by rw [hps]; exact List.mem_cons_of_mem p hpp)
  unfold load
  rw [hps]
  simp only [List.map_cons, reduceOr, hp]
  rw [foldl_or_false hmap]
  simp [hps]

/-- C5 witness: a concrete loaded state whose two providers both report no
change. -/
theorem c5_load_no_change_keeps_state_witness :
    ∃ m', load exLoadedReadOnly = some m' ∧ m'.sources = exLoadedReadOnly.sources ∧
      m'.fuse = exLoadedReadOnly.fuse :=
  c5_load_no_change_keeps_state exLoadedReadOnly
    (List.cons_ne_nil exLocalProvider [exZoteroProvider])
    (by
      intro p hp
      rcases List.mem_cons.mp hp with rfl | hp
      · rfl
      rcases List.mem_cons.mp hp with rfl | hp
      · rfl
      · exact absurd hp (List.not_mem_nil p))

/-- C7: before the index has ever been built, or over an empty merged set,
`searchAllSources` — and hence `search` with a query — returns the empty
sequence (total functions: no error can be raised). -/
theorem c7_search_unbuilt_or_empty (m : BibliographyManager) (q : String)
    (pk ck : Option String) (hq : q ≠ "")
    (h : m.fuse = none ∨ m.fuse = some []) :
    (∀ limit, searchAllSources m q limit = []) ∧ search m (some q) pk ck = [] := by
  have hall : ∀ limit, searchAllSources m q limit = [] := by
    intro limit
    rcases h with h | h <;> unfold searchAllSources <;> rw [h]
    cases hw : isWritable m <;> simp [hw, fuseSearch, sortByScore]
  refine ⟨hall, ?_⟩
  have hq' : optStrTruthy (some q) = true := by simp [optStrTruthy, hq]
  unfold search
  by_cases hpk : optStrTruthy pk = true <;> by_cases hck : optStrTruthy ck = true <;>
    simp [hq', hpk, hck, searchProviderCollection, searchProvider, hall 1000]

/-- C7 witness: a query on a freshly constructed manager. -/
theorem c7_search_unbuilt_or_empty_witness :
    (∀ limit,
      searchAllSources (mkBibliographyManager exLocalProvider exZoteroProvider) "a" limit = []) ∧
    search (mkBibliographyManager exLocalProvider exZoteroProvider) (some "a") none none = [] :=
  c7_search_unbuilt_or_empty (mkBibliographyManager exLocalProvider exZoteroProvider) "a"
    none none (by decide) (Or.inl rfl)

/-- C8: searching a provider and collection returns exactly the records of the
provider-scoped search whose collection keys contain the collection — the same
filter the code applies, so same records in the same relative order. -/
theorem c8_scoping_composition (m : BibliographyManager) (q P C : String)
    (hq : q ≠ "") (hP : P ≠ "") (hC : C ≠ "") :
    search m (some q) (some P) (some C) =
      (search m (some q) (some P) none).filter
        (fun r => r.collectionKeys.contains C) := by
  have hq' : optStrTruthy (some q) = true := by simp [optStrTruthy, hq]
  have hP' : optStrTruthy (some P) = true := by simp [optStrTruthy, hP]
  have hC' : optStrTruthy (some C) = true := by simp [optStrTruthy, hC]
  simp [search, hq', hP', hC', optStrTruthy, searchProviderCollection, hq, hP, hC]

/-- C8 witness: the composition evaluated on a concrete loaded state. -/
theorem c8_scoping_composition_witness :
    search exLoadedReadOnly (some "smith") (some kLocalBiliographyProviderKey) (some "coll1") =
      (search exLoadedReadOnly (some "smith") (some kLocalBiliographyProviderKey) none).filter
        (fun r => r.collectionKeys.contains "coll1") :=
  c8_scoping_composition exLoadedReadOnly "smith" kLocalBiliographyProviderKey "coll1"
    (by decide) (by decide) (by decide)

/-- Provider-scoped search is still bounded by the limit. -/
theorem searchProvider_length_le (m : BibliographyManager) (q : String) (limit : Nat)
    (pk : String) : (searchProvider m q limit pk).length ≤ limit :=
  Nat.le_trans (List.length_filter_le _ _) (searchAllSources_length_le m q limit)

/-- Provider-scoped search is still in descending score order. -/
theorem searchProvider_pairwise (m : BibliographyManager) (q : String) (limit : Nat)
    (pk : String) :
    List.Pairwise (fun a b => fuseScore q b ≤ fuseScore q a) (searchProvider m q limit pk) :=
  List.Pairwise.filter _ (searchAllSources_pairwise m q limit)

/-- Provider+collection-scoped search is still bounded by the limit. -/
theorem searchProviderCollection_length_le (m : BibliographyManager) (q : String)
    (limit : Nat) (pk ck : String) :
    (searchProviderCollection m q limit pk ck).length ≤ limit :=
  Nat.le_trans (List.length_filter_le _ _) (searchProvider_length_le m q limit pk)

/-- Provider+collection-scoped search is still in descending score order. -/
theorem searchProviderCollection_pairwise (m : BibliographyManager) (q : String)
    (limit : Nat) (pk ck : String) :
    List.Pairwise (fun a b => fuseScore q b ≤ fuseScore q a)
      (searchProviderCollection m q limit pk ck) :=
  List.Pairwise.filter _ (searchProvider_pairwise m q limit pk)

/-- With a truthy query, `search` lands in one of the three index-backed
branches, each with the limit 1000. -/
theorem search_query_cases (m : BibliographyManager) (q : String) (hq : q ≠ "")
    (pk ck : Option String) :
    search m (some q) pk ck = searchProviderCollection m q 1000 (pk.getD "") (ck.getD "") ∨
    search m (some q) pk ck = searchProvider m q 1000 (pk.getD "") ∨
    search m (some q) pk ck = searchAllSources m q 1000 := by
  have hq' : optStrTruthy (some q) = true := by simp [optStrTruthy, hq]
  by_cases hpk : optStrTruthy pk = true <;> by_cases hck : optStrTruthy ck = true
  · exact Or.inl (by simp [search, hq', hpk, hck])
  · exact Or.inr (Or.inl (by simp [search, hq', hpk, hck]))
  · exact Or.inr (Or.inr (by simp [search, hq', hpk, hck]))
  · exact Or.inr (Or.inr (by simp [search, hq', hpk, hck]))

/-- C6: `search` with a (truthy) query returns at most the Manager's limit of
1000 records, ordered by descending weighted fuzzy relevance score; and
`searchAllSources` respects any limit it is given. -/
theorem c6_search_bounded_and_sorted (m : BibliographyManager) (q : String)
    (hq : q ≠ "") (pk ck : Option String) :
    (∀ limit, (searchAllSources m q limit).length ≤ limit) ∧
    (search m (some q) pk ck).length ≤ 1000 ∧
    List.Pairwise (fun a b => fuseScore q b ≤ fuseScore q a) (search m (some q) pk ck) := by
  refine ⟨fun limit => searchAllSources_length_le m q limit, ?_, ?_⟩ <;>
    rcases search_query_cases m q hq pk ck with h | h | h <;> rw [h]
  · exact searchProviderCollection_length_le m q 1000 _ _
  · exact searchProvider_length_le m q 1000 _
  · exact searchAllSources_length_le m q 1000
  · exact searchProviderCollection_pairwise m q 1000 _ _
  · exact searchProvider_pairwise m q 1000 _
  · exact searchAllSources_pairwise m q 1000

/-- C6 witness: the bound and ordering on a concrete loaded state. -/
theorem c6_search_bounded_and_sorted_witness :
    (∀ limit, (searchAllSources exLoadedReadOnly "smith" limit).length ≤ limit) ∧
    (search exLoadedReadOnly (some "smith") none none).length ≤ 1000 ∧
    List.Pairwise (fun a b => fuseScore "smith" b ≤ fuseScore "smith" a)
      (search exLoadedReadOnly (some "smith") none none) :=
  c6_search_bounded_and_sorted exLoadedReadOnly "smith" (by decide) none none

/-- C1: on a non-writable state whose indexed records carry a `provider`
property at most as their own `providerKey` (as provider-built records do),
free-text search with no provider or collection filter returns only records
whose `providerKey` is the local provider key; every non-local record is
excluded even when the indexed merged set contains it. -/
theorem c1_search_not_writable_only_local (m : BibliographyManager) (q : String)
    (hq : q ≠ "") (hw : isWritable m = false)
    (hinv : ∀ r ∈ m.fuse.getD [], r.provider = none ∨ r.provider = some r.providerKey) :
    (∀ limit, ∀ r ∈ searchAllSources m q limit,
      r.providerKey = kLocalBiliographyProviderKey) ∧
    ∀ r ∈ search m (some q) none none, r.providerKey = kLocalBiliographyProviderKey := by
  have hmain : ∀ limit, ∀ r ∈ searchAllSources m q limit,
      r.providerKey = kLocalBiliographyProviderKey := by
    intro limit r hr
    unfold searchAllSources at hr
    cases hf : m.fuse with
    | none => simp [hf] at hr
    | some records =>
      rw [hf] at hr
      simp only [hw, if_false, Bool.false_eq_true] at hr
      obtain ⟨hmem, hprov⟩ := List.mem_filter.mp hr
      have hrec : r ∈ records := fuseSearch_subset hmem
      rcases hinv r (by rw [hf]; exact hrec) with hnone | hsome
      · rw [hnone] at hprov
        simp at hprov
      · rw [hsome] at hprov
        simpa using hprov
  refine ⟨hmain, ?_⟩
  have hsearch : search m (some q) none none = searchAllSources m q 1000 := by
    simp [search, optStrTruthy, hq]
  rw [hsearch]
  exact hmain 1000

/-- C1 witness: on the concrete read-only state the unscoped query "smith"
returns the matching local record, whose provider key is local. -/
theorem c1_search_not_writable_only_local_witness :
    exLocalRecord.providerKey = kLocalBiliographyProviderKey :=
  (c1_search_not_writable_only_local exLoadedReadOnly "smith" (by decide) (by decide)
      (by decide)).2 exLocalRecord (by decide)

/-- The normalized source (identifier and title present) used to exhibit the
citation-fallback bug. -/
def exCSLFoo : CSL :=
  { title := some "Foo", author := [], issued := none, DOI := none }

/-- C2 (code bug): `generateBibLaTeX` tests the truthiness of the un-awaited
Promise, which is always truthy, so a provider that exists but declines makes
the Manager return the provider's `undefined` result — the generic
`toBibLaTeX` fallback (which is non-empty for this source) is never reached. -/
theorem c2_provider_declines_no_fallback :
    generateBibLaTeX exLoadedReadOnly "A1" exCSLFoo (some "zotero") = none ∧
    toBibLaTeX "A1" exCSLFoo ≠ "" :=
  ⟨rfl, by decide⟩

end Bibliography
